import Mathlib

/-!
Shallow embedding of src/app.py of the asdvision Flask application (the
merged master-side variant, which the cited line ranges point at): the
single-image handler dashboard, the batch handler dashboard_2, and the
helpers delete_items and load_and_preprocess_image.

External effects are modelled explicitly: the filesystem upload folder is a
list of distinct filenames, PIL images are pixel functions, numpy arrays are
a shape plus flattened rational data, and the opaque Keras model together
with the fallible library calls (file.save, Image.open, predict) are
represented by their observable outcomes carried on each upload. Raised
exceptions are modelled as Except error values / Option error components.
-/

namespace App

/-! ## ImagePreprocessor: load_and_preprocess_image (src/app.py lines 406-410) -/

/-- PIL color modes for 8-bit images: grayscale L, truecolor RGB, and RGBA. -/
inductive PILMode where
  | L
  | RGB
  | RGBA
deriving DecidableEq

/-- Channel count numpy stores for each mode. A mode-L image becomes a 2-D
array, so its single channel adds no axis to the shape. -/
def PILMode.channels : PILMode → Nat
  | .L => 1
  | .RGB => 3
  | .RGBA => 4

/-- A decoded PIL image: 8-bit pixels addressed by column, row and channel. -/
structure PILImage where
  width : Nat
  height : Nat
  mode : PILMode
  pixel : Nat → Nat → Nat → Nat
  pixel_le : ∀ x y c, pixel x y c ≤ 255

/-- Model of PIL Image.resize((w, h)): an image of the requested size in the
same mode, pixels resampled from the source (nearest-neighbour here; any
resampling keeps 8-bit values in range). -/
def PILImage.resize (img : PILImage) (w h : Nat) : PILImage where
  width := w
  height := h
  mode := img.mode
  pixel := fun x y c => img.pixel (x * img.width / w) (y * img.height / h) c
  pixel_le := fun _ _ _ => img.pixel_le _ _ _

/-- A numpy array: its shape and its flattened entries as rationals. -/
structure NpArray where
  shape : List Nat
  data : List ℚ

/-- Model of np.array applied to a PIL image: mode L gives a (height, width)
array, RGB gives (height, width, 3), RGBA gives (height, width, 4); the
entries are the 8-bit pixel values. -/
def npOfImage (img : PILImage) : NpArray where
  shape :=
    match img.mode with
    | .L => [img.height, img.width]
    | .RGB => [img.height, img.width, 3]
    | .RGBA => [img.height, img.width, 4]
  data :=
    (List.range img.height).flatMap fun y =>
      (List.range img.width).flatMap fun x =>
        (List.range img.mode.channels).map fun c => (img.pixel x y c : ℚ)

/-- Elementwise division of a numpy array by a scalar. -/
def NpArray.divScalar (a : NpArray) (d : ℚ) : NpArray where
  shape := a.shape
  data := a.data.map (fun v => v / d)

/-- Model of np.expand_dims(a, axis=0): a leading axis of length 1. -/
def expand_dims (a : NpArray) : NpArray where
  shape := 1 :: a.shape
  data := a.data

/-- def load_and_preprocess_image(img): resize to 224 x 224, divide by
255.0, and add a leading batch dimension. -/
def load_and_preprocess_image (img : PILImage) : NpArray :=
  let img_resized := img.resize 224 224
  let img_array := (npOfImage img_resized).divScalar 255
  expand_dims img_array

/-! ## WorkingDirectoryStore: delete_items (src/app.py lines 386-391) -/

/-- Model of os.remove inside the upload folder: removing a listed file
succeeds, removing a missing file raises (the error carries the path). -/
def os_remove (dir : List String) (f : String) : Except String (List String) :=
  if f ∈ dir then .ok (dir.erase f) else .error f

/-- The loop of delete_items over the os.listdir snapshot: remove each listed
item in turn, propagating the first exception. -/
def delete_items_go : List String → List String → Except String (List String)
  | d, [] => .ok d
  | d, f :: fs =>
    match os_remove d f with
    | .ok d2 => delete_items_go d2 fs
    | .error e => .error e

/-- def delete_items(directory): delete every file currently listed in the
given directory. -/
def delete_items (dir : List String) : Except String (List String) :=
  delete_items_go dir dir

/-- Model of file.save(file_path): writing under an existing name overwrites
it in place, a fresh name is appended to the directory listing. -/
def saveFile (dir : List String) (f : String) : List String :=
  if f ∈ dir then dir else dir ++ [f]

/-! ## BatchClassificationPipeline: dashboard_2 (src/app.py lines 298-384) -/

/-- One uploaded file of a POST to /dashboard_2. The external effects on it
are recorded by their observable outcomes: whether file.save raises, whether
Image.open plus preprocessing raises, whether loaded_model.predict raises,
and the score predict returns when it succeeds. -/
structure Upload where
  filename : String
  saveOk : Bool
  decodeOk : Bool
  predictOk : Bool
  score : ℚ
deriving DecidableEq

/-- The exception escaping the upload loop, when one is raised. -/
inductive BatchError where
  | saveError (filename : String)
  | decodeError (filename : String)
  | inferError (filename : String)
deriving DecidableEq

/-- The mutable state of one dashboard_2 POST: the upload folder listing, the
two result buckets, and how often preprocessing and predict were invoked. -/
structure BatchState where
  dir : List String
  class_0_images : List String
  class_1_images : List String
  preprocessCalls : Nat
  predictCalls : Nat
deriving DecidableEq

/-- Whether every fallible step of the loop body succeeds for an upload. -/
def uploadOk (u : Upload) : Bool :=
  u.saveOk && u.decodeOk && u.predictOk

/-- Body of the upload loop of dashboard_2 (POST): file.save, Image.open plus
load_and_preprocess_image, loaded_model.predict, then bucket the filename by
the score > 0.3 rule. Returns the updated state and the raised exception, if
any; there is no try/except around the body in the source. -/
def processUpload (st : BatchState) (u : Upload) : BatchState × Option BatchError :=
  if u.saveOk = false then (st, some (.saveError u.filename)) else
  let st1 : BatchState := { st with dir := saveFile st.dir u.filename }
  if u.decodeOk = false then (st1, some (.decodeError u.filename)) else
  let st2 : BatchState := { st1 with
    preprocessCalls := st1.preprocessCalls + 1
    predictCalls := st1.predictCalls + 1 }
  if u.predictOk = false then (st2, some (.inferError u.filename)) else
  if u.score > 3 / 10 then
    ({ st2 with class_0_images := st2.class_0_images ++ [u.filename] }, none)
  else
    ({ st2 with class_1_images := st2.class_1_images ++ [u.filename] }, none)

/-- The upload loop: process uploads in order, stopping at the first raised
exception (which then escapes the request handler). -/
def runUploads : BatchState → List Upload → BatchState × Option BatchError
  | st, [] => (st, none)
  | st, u :: rest =>
    match processUpload st u with
    | (st2, none) => runUploads st2 rest
    | (st2, some e) => (st2, some e)

/-- POST branch of dashboard_2: delete_items on the upload folder, then the
upload loop over request.files.getlist. The outer Except is a failure of
delete_items; the inner Option is an exception escaping the loop. -/
def dashboard_2_post (dir0 : List String) (uploads : List Upload) :
    Except String (BatchState × Option BatchError) :=
  match delete_items dir0 with
  | .error e => .error e
  | .ok d => .ok (runUploads ⟨d, [], [], 0, 0⟩ uploads)

/-- The JSON body dashboard_2 returns: the two buckets when the loop ran to
completion, and none when any exception escaped (no JSON is produced then). -/
def dashboard_2_json (dir0 : List String) (uploads : List Upload) :
    Option (List String × List String) :=
  match dashboard_2_post dir0 uploads with
  | .ok (st, none) => some (st.class_0_images, st.class_1_images)
  | _ => none

/-! ## SingleImageClassificationHandler: dashboard (src/app.py lines 172-231) -/

/-- Python "{:.2f}" on these probabilities, modelled as rounding a rational
to the nearest hundredth. -/
def format2 (q : ℚ) : ℚ := (round (q * 100) : ℚ) / 100

/-- The single file of a POST to /dashboard, with the observable outcomes of
Image.open plus preprocessing and of loaded_model.predict. -/
structure SingleFile where
  filename : String
  decodeOk : Bool
  predictOk : Bool
  score : ℚ
deriving DecidableEq

/-- An exception escaping the dashboard handler. -/
inductive SingleError where
  | decodeError
  | inferError
deriving DecidableEq

/-- The response of the dashboard POST branch: the rendered page, or the
jsonify body whose result string interpolates the two formatted
probabilities (modelled by their rounded values pas and pns). -/
inductive SingleResponse where
  | page
  | json (pas pns : ℚ)
deriving DecidableEq

/-- POST branch of dashboard: request.files lookup of the image part, the
filename check, then decode, predict and format. The returned pair is the
final value of the local message variable together with the response; a
raised exception is the Except error case. -/
def dashboard_post (imageFile : Option SingleFile) :
    Except SingleError (String × SingleResponse) :=
  match imageFile with
  | none => .ok ("No file part", .page)
  | some file =>
    if file.filename = "" then .ok ("No selected file", .page)
    else if file.decodeOk = false then .error .decodeError
    else if file.predictOk = false then .error .inferError
    else
      let pa := 1 - file.score
      let pas := format2 pa
      let pn := file.score
      let pns := format2 pn
      .ok ("File uploaded successfully", .json pas pns)

/-! ## Helper lemmas about the batch pipeline -/

/-- The state after a fully successful iteration of the upload loop. -/
def stepState (st : BatchState) (u : Upload) : BatchState where
  dir := saveFile st.dir u.filename
  class_0_images := st.class_0_images ++ if u.score > 3 / 10 then [u.filename] else []
  class_1_images := st.class_1_images ++ if u.score > 3 / 10 then [] else [u.filename]
  preprocessCalls := st.preprocessCalls + 1
  predictCalls := st.predictCalls + 1

lemma processUpload_ok (st : BatchState) (u : Upload) (h : uploadOk u = true) :
    processUpload st u = (stepState st u, none) := by
  simp only [uploadOk, Bool.and_eq_true] at h
  obtain ⟨⟨hs, hd⟩, hp⟩ := h
  by_cases hsc : u.score > 3 / 10 <;>
    simp [processUpload, stepState, hs, hd, hp, hsc]

lemma processUpload_fail (st : BatchState) (u : Upload) (h : uploadOk u = false) :
    ∃ st2 e, processUpload st u = (st2, some e) ∧
      st2.class_0_images = st.class_0_images ∧
      st2.class_1_images = st.class_1_images ∧
      st2.dir = if u.saveOk then saveFile st.dir u.filename else st.dir := by
  cases hs : u.saveOk with
  | false =>
    exact ⟨st, .saveError u.filename, by simp [processUpload, hs], rfl, rfl, by simp [hs]⟩
  | true =>
    cases hd : u.decodeOk with
    | false =>
      exact ⟨{ st with dir := saveFile st.dir u.filename }, .decodeError u.filename,
        by simp [processUpload, hs, hd], rfl, rfl, by simp [hs]⟩
    | true =>
      cases hp : u.predictOk with
      | false =>
        exact ⟨⟨saveFile st.dir u.filename, st.class_0_images, st.class_1_images,
            st.preprocessCalls + 1, st.predictCalls + 1⟩, .inferError u.filename,
          by simp [processUpload, hs, hd, hp], rfl, rfl, by simp [hs]⟩
      | true => simp [uploadOk, hs, hd, hp] at h

lemma runUploads_ok (us : List Upload) (st : BatchState)
    (h : ∀ u ∈ us, uploadOk u = true) :
    runUploads st us = (us.foldl stepState st, none) := by
  induction us generalizing st with
  | nil => rfl
  | cons u rest ih =>
    have hu := h u (List.mem_cons_self u rest)
    simp only [runUploads, processUpload_ok st u hu, List.foldl_cons]
    exact ih (stepState st u) fun v hv => h v (List.mem_cons_of_mem u hv)

lemma runUploads_append_ok (pre rest : List Upload) (st : BatchState)
    (h : ∀ u ∈ pre, uploadOk u = true) :
    runUploads st (pre ++ rest) = runUploads (pre.foldl stepState st) rest := by
  induction pre generalizing st with
  | nil => rfl
  | cons u pre2 ih =>
    have hu := h u (List.mem_cons_self u pre2)
    simp only [List.cons_append, runUploads, processUpload_ok st u hu, List.foldl_cons]
    exact ih (stepState st u) fun v hv => h v (List.mem_cons_of_mem u hv)

lemma foldl_stepState_class0 (us : List Upload) (st : BatchState) :
    (us.foldl stepState st).class_0_images =
      st.class_0_images ++ (us.filter fun u => u.score > 3 / 10).map Upload.filename := by
  induction us generalizing st with
  | nil => simp
  | cons u rest ih =>
    rw [List.foldl_cons, ih, List.filter_cons]
    by_cases hsc : u.score > 3 / 10 <;> simp [stepState, hsc]

lemma foldl_stepState_class1 (us : List Upload) (st : BatchState) :
    (us.foldl stepState st).class_1_images =
      st.class_1_images ++ (us.filter fun u => ¬ u.score > 3 / 10).map Upload.filename := by
  induction us generalizing st with
  | nil => simp
  | cons u rest ih =>
    rw [List.foldl_cons, ih, List.filter_cons]
    by_cases hsc : u.score > 3 / 10 <;> simp [stepState, hsc]

lemma mem_saveFile {dir : List String} {f g : String} :
    g ∈ saveFile dir f ↔ g ∈ dir ∨ g = f := by
  unfold saveFile
  split
  · rename_i h
    constructor
    · exact Or.inl
    · rintro (hg | rfl)
      · exact hg
      · exact h
  · simp

lemma foldl_stepState_dir_mono (us : List Upload) (st : BatchState) (f : String)
    (h : f ∈ st.dir) : f ∈ (us.foldl stepState st).dir := by
  induction us generalizing st with
  | nil => exact h
  | cons u rest ih =>
    rw [List.foldl_cons]
    exact ih (stepState st u) (mem_saveFile.mpr (Or.inl h))

lemma foldl_stepState_dir_mem (us : List Upload) (st : BatchState) (u : Upload)
    (h : u ∈ us) : u.filename ∈ (us.foldl stepState st).dir := by
  induction us generalizing st with
  | nil => cases h
  | cons v rest ih =>
    rw [List.foldl_cons]
    rcases List.mem_cons.mp h with rfl | h2
    · exact foldl_stepState_dir_mono rest _ _ (mem_saveFile.mpr (Or.inr rfl))
    · exact ih (stepState st v) h2

/-! ## Helper lemmas about delete_items -/

lemma delete_items_go_ok (fs : List String) (d : List String) (hnd : fs.Nodup)
    (hsub : ∀ f ∈ fs, f ∈ d) :
    delete_items_go d fs = .ok (fs.foldl List.erase d) := by
  induction fs generalizing d with
  | nil => rfl
  | cons f fs2 ih =>
    have hf : f ∈ d := hsub f (List.mem_cons_self f fs2)
    simp only [delete_items_go, os_remove, if_pos hf, List.foldl_cons]
    refine ih (d.erase f) (List.nodup_cons.mp hnd).2 fun g hg => ?_
    have hgf : g ≠ f := fun he => (List.nodup_cons.mp hnd).1 (he ▸ hg)
    exact (List.mem_erase_of_ne hgf).mpr (hsub g (List.mem_cons_of_mem f hg))

lemma foldl_erase_self : ∀ d : List String, d.Nodup → List.foldl List.erase d d = []
  | [], _ => rfl
  | a :: t, hnd => by
    rw [List.foldl_cons, List.erase_cons_head]
    exact foldl_erase_self t (List.nodup_cons.mp hnd).2

lemma delete_items_nodup (d : List String) (hnd : d.Nodup) :
    delete_items d = .ok [] := by
  rw [delete_items, delete_items_go_ok d d hnd fun f hf => hf, foldl_erase_self d hnd]

lemma dashboard_2_post_nodup (dir0 : List String) (uploads : List Upload)
    (hnd : dir0.Nodup) :
    dashboard_2_post dir0 uploads = .ok (runUploads ⟨[], [], [], 0, 0⟩ uploads) := by
  rw [dashboard_2_post, delete_items_nodup dir0 hnd]

lemma dashboard_2_json_of_ok {dir0 : List String} {us : List Upload} {st : BatchState}
    (h : dashboard_2_post dir0 us = .ok (st, none)) :
    dashboard_2_json dir0 us = some (st.class_0_images, st.class_1_images) := by
  rw [dashboard_2_json, h]

lemma dashboard_2_json_of_err {dir0 : List String} {us : List Upload} {st : BatchState}
    {e : BatchError} (h : dashboard_2_post dir0 us = .ok (st, some e)) :
    dashboard_2_json dir0 us = none := by
  rw [dashboard_2_json, h]

lemma dashboard_2_json_filters (dir0 : List String) (us : List Upload)
    (hnd : dir0.Nodup) (hok : ∀ u ∈ us, uploadOk u = true) :
    dashboard_2_json dir0 us =
      some ((us.filter fun u => u.score > 3 / 10).map Upload.filename,
            (us.filter fun u => ¬ u.score > 3 / 10).map Upload.filename) := by
  have h : dashboard_2_post dir0 us =
      .ok (us.foldl stepState ⟨[], [], [], 0, 0⟩, none) := by
    rw [dashboard_2_post_nodup dir0 us hnd, runUploads_ok us _ hok]
  rw [dashboard_2_json_of_ok h, foldl_stepState_class0, foldl_stepState_class1]
  simp

/-! ## Helper lemma about preprocessed pixel data -/

lemma npOfImage_data_bounds (img : PILImage) :
    ∀ v ∈ (npOfImage img).data, 0 ≤ v ∧ v ≤ 255 := by
  intro v hv
  simp only [npOfImage, List.mem_flatMap, List.mem_map] at hv
  obtain ⟨y, -, x, -, c, -, rfl⟩ := hv
  constructor
  · positivity
  · exact_mod_cast img.pixel_le x y c

/-! ## Claim theorems -/

/-- C8: delete_items on an already-empty working directory succeeds and
leaves it empty, and calling it twice in a row does the same: clear is
idempotent on the empty directory. -/
theorem delete_items_idempotent_empty :
    delete_items [] = .ok [] ∧
    Except.bind (delete_items []) delete_items = .ok [] :=
  ⟨rfl, rfl⟩

/-- C5 counterexample: a decodable grayscale (mode L) image is preprocessed
to an array of shape (1, 224, 224), not (1, 224, 224, 3): the code never
converts the color mode of its input. -/
theorem preprocess_shape_counterexample :
    (load_and_preprocess_image
        ⟨5, 7, .L, fun _ _ _ => 0, fun _ _ _ => Nat.zero_le 255⟩).shape = [1, 224, 224] ∧
    [1, 224, 224] ≠ ([1, 224, 224, 3] : List Nat) :=
  ⟨rfl, by decide⟩

/-- C5 amended: for every decodable input image, load_and_preprocess_image
returns data values in [0, 1], and a tensor of shape (1, 224, 224) for
grayscale input, (1, 224, 224, 3) for RGB input, and (1, 224, 224, 4) for
RGBA input: the fixed shape (1, 224, 224, 3) holds exactly for RGB images. -/
theorem preprocess_shape_by_mode (img : PILImage) :
    (load_and_preprocess_image img).shape =
      (match img.mode with
        | .L => [1, 224, 224]
        | .RGB => [1, 224, 224, 3]
        | .RGBA => [1, 224, 224, 4]) ∧
    ∀ v ∈ (load_and_preprocess_image img).data, 0 ≤ v ∧ v ≤ 1 := by
  constructor
  · rcases img with ⟨w, h, m, p, hp⟩
    cases m <;> rfl
  · intro v hv
    simp only [load_and_preprocess_image, expand_dims, NpArray.divScalar,
      List.mem_map] at hv
    obtain ⟨a, ha, rfl⟩ := hv
    obtain ⟨ha0, ha255⟩ := npOfImage_data_bounds _ a ha
    constructor
    · positivity
    · rw [div_le_one (by norm_num)]
      linarith

/-- C2: in the upload loop of dashboard_2, a successfully classified upload
has its filename appended to class_0_images exactly when its score is
strictly greater than 0.3, and appended to class_1_images otherwise. -/
theorem bucket_threshold_rule (st : BatchState) (u : Upload) (h : uploadOk u = true) :
    ((processUpload st u).1.class_0_images = st.class_0_images ++ [u.filename] ↔
      u.score > 3 / 10) ∧
    ((processUpload st u).1.class_1_images = st.class_1_images ++ [u.filename] ↔
      ¬ u.score > 3 / 10) := by
  rw [processUpload_ok st u h]
  by_cases hsc : u.score > 3 / 10 <;> simp [stepState, hsc]

/-- C2 witness: a score of exactly 0.3 is bucketed into class_1 and a score
of 0.30000001 is bucketed into class_0. -/
theorem bucket_threshold_rule_witness :
    (processUpload ⟨[], [], [], 0, 0⟩
        ⟨"x.png", true, true, true, 3 / 10⟩).1.class_1_images = ["x.png"] ∧
    (processUpload ⟨[], [], [], 0, 0⟩
        ⟨"y.png", true, true, true, 30000001 / 100000000⟩).1.class_0_images = ["y.png"] := by
  constructor
  · exact (bucket_threshold_rule ⟨[], [], [], 0, 0⟩
      ⟨"x.png", true, true, true, 3 / 10⟩ rfl).2.mpr (by norm_num)
  · exact (bucket_threshold_rule ⟨[], [], [], 0, 0⟩
      ⟨"y.png", true, true, true, 30000001 / 100000000⟩ rfl).1.mpr (by norm_num)

/-- C7: a POST to dashboard with no image file part finishes with the
message value No file part, and a file part with an empty filename finishes
with the message value No selected file; both answer with the normally
rendered page, no exception is raised. -/
theorem dashboard_validation_messages (f : SingleFile) :
    dashboard_post none = .ok ("No file part", .page) ∧
    (f.filename = "" → dashboard_post (some f) = .ok ("No selected file", .page)) := by
  refine ⟨rfl, fun h => ?_⟩
  simp [dashboard_post, h]

/-- C7 witness: both validation branches at concrete requests. -/
theorem dashboard_validation_messages_witness :
    dashboard_post none = .ok ("No file part", .page) ∧
    dashboard_post (some ⟨"", true, true, 1 / 2⟩) = .ok ("No selected file", .page) :=
  ⟨(dashboard_validation_messages ⟨"", true, true, 1 / 2⟩).1,
   (dashboard_validation_messages ⟨"", true, true, 1 / 2⟩).2 rfl⟩

/-- C6: on a successful single-image classification with score s, dashboard
computes pAutistic = 1 - s and pNonAutistic = s, formats both to two
decimals, and the two formatted values sum to 1 within 1/100. -/
theorem percentage_complement (f : SingleFile) (h1 : ¬ f.filename = "")
    (h2 : f.decodeOk = true) (h3 : f.predictOk = true) :
    dashboard_post (some f) =
      .ok ("File uploaded successfully",
        .json (format2 (1 - f.score)) (format2 f.score)) ∧
    |format2 (1 - f.score) + format2 f.score - 1| ≤ 1 / 100 := by
  constructor
  · simp [dashboard_post, h1, h2, h3]
  · have ha := abs_sub_round ((1 - f.score) * 100)
    have hb := abs_sub_round (f.score * 100)
    rw [abs_le] at ha hb ⊢
    simp only [format2]
    constructor <;> nlinarith [ha.1, ha.2, hb.1, hb.2]

/-- C6 witness: the complement property at a concrete score of 0.7. -/
theorem percentage_complement_witness :
    dashboard_post (some ⟨"img.png", true, true, 7 / 10⟩) =
      .ok ("File uploaded successfully",
        .json (format2 (1 - 7 / 10)) (format2 (7 / 10))) ∧
    |format2 (1 - 7 / 10) + format2 (7 / 10) - 1| ≤ 1 / 100 :=
  percentage_complement ⟨"img.png", true, true, 7 / 10⟩ (by decide) rfl rfl

/-- C10: a POST to dashboard_2 with an empty uploads list still clears the
working directory and returns the JSON result with both buckets empty,
invoking neither preprocessing nor the classifier. -/
theorem batch_empty_uploads (dir0 : List String) (hnd : dir0.Nodup) :
    dashboard_2_post dir0 [] = .ok (⟨[], [], [], 0, 0⟩, none) ∧
    dashboard_2_json dir0 [] = some ([], []) := by
  have h : dashboard_2_post dir0 [] = .ok (⟨[], [], [], 0, 0⟩, none) :=
    dashboard_2_post_nodup dir0 [] hnd
  exact ⟨h, dashboard_2_json_of_ok h⟩

/-- C10 witness: an empty POST against a directory holding two stale files. -/
theorem batch_empty_uploads_witness :
    dashboard_2_post ["old1.png", "old2.png"] [] = .ok (⟨[], [], [], 0, 0⟩, none) ∧
    dashboard_2_json ["old1.png", "old2.png"] [] = some ([], []) :=
  batch_empty_uploads ["old1.png", "old2.png"] (by decide)

/-- C4 counterexample: for the uploads a.png, b.png, c.png with scores 0.9,
0.1, 0.5, the code puts c.png into class_0 since 0.5 > 0.3, so the buckets
are ([a.png, c.png], [b.png]) and not the claimed ([a.png], [b.png, c.png]). -/
theorem batch_order_counterexample :
    dashboard_2_json []
      [⟨"a.png", true, true, true, 9 / 10⟩, ⟨"b.png", true, true, true, 1 / 10⟩,
       ⟨"c.png", true, true, true, 1 / 2⟩] =
      some (["a.png", "c.png"], ["b.png"]) ∧
    some (["a.png", "c.png"], ["b.png"]) ≠
      some ((["a.png"], ["b.png", "c.png"]) : List String × List String) := by
  have ha : (3 : ℚ) / 10 < 9 / 10 := by norm_num
  have hb : ¬ ((3 : ℚ) / 10 < 10⁻¹) := by norm_num
  have hc : (3 : ℚ) / 10 < 2⁻¹ := by norm_num
  refine ⟨?_, by simp⟩
  simp [dashboard_2_json, dashboard_2_post, delete_items, delete_items_go, runUploads,
    processUpload, saveFile, ha, hb, hc]

/-- C4 amended: when every upload in the batch classifies successfully, the
returned buckets are exactly the order-preserving filters of the upload
sequence by the threshold rule: relative input order is kept, nothing is
sorted and nothing is deduplicated; for scores 0.9, 0.1, 0.5 this gives
class_0_images = [a.png, c.png] and class_1_images = [b.png]. -/
theorem batch_order_preservation (dir0 : List String) (us : List Upload)
    (hnd : dir0.Nodup) (hok : ∀ u ∈ us, uploadOk u = true) :
    dashboard_2_json dir0 us =
      some ((us.filter fun u => u.score > 3 / 10).map Upload.filename,
            (us.filter fun u => ¬ u.score > 3 / 10).map Upload.filename) :=
  dashboard_2_json_filters dir0 us hnd hok

/-- C4 amended witness: uploads a.png, b.png, c.png with scores 0.9, 0.1,
0.5 yield class_0_images = [a.png, c.png] and class_1_images = [b.png]. -/
theorem batch_order_preservation_witness :
    dashboard_2_json []
      [⟨"a.png", true, true, true, 9 / 10⟩, ⟨"b.png", true, true, true, 1 / 10⟩,
       ⟨"c.png", true, true, true, 1 / 2⟩] =
      some (["a.png", "c.png"], ["b.png"]) := by
  have h := batch_order_preservation []
    [⟨"a.png", true, true, true, 9 / 10⟩, ⟨"b.png", true, true, true, 1 / 10⟩,
     ⟨"c.png", true, true, true, 1 / 2⟩] List.nodup_nil (by decide)
  rw [h]
  have ha1 : (3 : ℚ) / 10 < 9 / 10 := by norm_num
  have hb1 : ¬ ((3 : ℚ) / 10 < 10⁻¹) := by norm_num
  have hc1 : (3 : ℚ) / 10 < 2⁻¹ := by norm_num
  have ha2 : ¬ ((9 : ℚ) / 10 ≤ 3 / 10) := by norm_num
  have hb2 : (10 : ℚ)⁻¹ ≤ 3 / 10 := by norm_num
  have hc2 : ¬ ((2 : ℚ)⁻¹ ≤ 3 / 10) := by norm_num
  simp [ha1, hb1, hc1, ha2, hb2, hc2]

/-- C1 counterexample: for a batch of three uploads whose second is
undecodable, the raised exception escapes the loop: no JSON is produced, and
the bucket state at abort holds only the first image rather than images 1
and 3. -/
theorem batch_skip_counterexample :
    dashboard_2_post []
      [⟨"a.png", true, true, true, 9 / 10⟩, ⟨"b.png", true, false, true, 1 / 2⟩,
       ⟨"c.png", true, true, true, 1 / 2⟩] =
      .ok (⟨["a.png", "b.png"], ["a.png"], [], 1, 1⟩, some (.decodeError "b.png")) ∧
    dashboard_2_json []
      [⟨"a.png", true, true, true, 9 / 10⟩, ⟨"b.png", true, false, true, 1 / 2⟩,
       ⟨"c.png", true, true, true, 1 / 2⟩] = none := by
  have ha : (9 : ℚ) / 10 > 3 / 10 := by norm_num
  refine ⟨?_, ?_⟩ <;>
    simp [dashboard_2_json, dashboard_2_post, delete_items, delete_items_go, runUploads,
      processUpload, saveFile, ha]

/-- C1 amended: there is no per-image recovery in the upload loop: if
saving, decoding or classification fails for one upload, the exception
escapes the batch call, no JSON result is returned, later uploads are not
processed, and the buckets at abort hold exactly the successfully classified
earlier uploads. -/
theorem batch_abort_on_failure (dir0 : List String) (pre post : List Upload)
    (bad : Upload) (hnd : dir0.Nodup) (hpre : ∀ u ∈ pre, uploadOk u = true)
    (hbad : uploadOk bad = false) :
    dashboard_2_json dir0 (pre ++ bad :: post) = none ∧
    ∃ st e, dashboard_2_post dir0 (pre ++ bad :: post) = .ok (st, some e) ∧
      st.class_0_images = (pre.filter fun u => u.score > 3 / 10).map Upload.filename ∧
      st.class_1_images = (pre.filter fun u => ¬ u.score > 3 / 10).map Upload.filename := by
  obtain ⟨st2, e, hpu, h0, h1, -⟩ :=
    processUpload_fail (pre.foldl stepState ⟨[], [], [], 0, 0⟩) bad hbad
  have hpost : dashboard_2_post dir0 (pre ++ bad :: post) = .ok (st2, some e) := by
    rw [dashboard_2_post_nodup _ _ hnd, runUploads_append_ok pre (bad :: post) _ hpre,
      runUploads, hpu]
  refine ⟨dashboard_2_json_of_err hpost, st2, e, hpost, ?_, ?_⟩
  · rw [h0, foldl_stepState_class0]
    simp
  · rw [h1, foldl_stepState_class1]
    simp

/-- C1 amended witness: the three-upload batch with an undecodable second
image aborts with only a.png bucketed. -/
theorem batch_abort_on_failure_witness :
    dashboard_2_json []
      [⟨"a.png", true, true, true, 9 / 10⟩, ⟨"b.png", true, false, true, 1 / 2⟩,
       ⟨"c.png", true, true, true, 1 / 2⟩] = none ∧
    ∃ st e, dashboard_2_post []
        [⟨"a.png", true, true, true, 9 / 10⟩, ⟨"b.png", true, false, true, 1 / 2⟩,
         ⟨"c.png", true, true, true, 1 / 2⟩] = .ok (st, some e) ∧
      st.class_0_images = ["a.png"] ∧ st.class_1_images = [] := by
  have h := batch_abort_on_failure [] [⟨"a.png", true, true, true, 9 / 10⟩]
    [⟨"c.png", true, true, true, 1 / 2⟩] ⟨"b.png", true, false, true, 1 / 2⟩
    List.nodup_nil (by decide) (by decide)
  obtain ⟨hjson, st, e, hpost, h0, h1⟩ := h
  simp only [List.cons_append, List.nil_append] at hjson hpost
  have ha1 : (3 : ℚ) / 10 < 9 / 10 := by norm_num
  have ha2 : ¬ ((9 : ℚ) / 10 ≤ 3 / 10) := by norm_num
  refine ⟨hjson, st, e, hpost, ?_, ?_⟩
  · rw [h0]
    simp [ha1]
  · rw [h1]
    simp [ha2]

/-- C3 counterexample: when the same filename is uploaded twice, once above
and once below the threshold, that filename appears in both returned
buckets, violating exclusivity as the claim states it. -/
theorem bucket_exclusive_counterexample :
    dashboard_2_json []
      [⟨"a.png", true, true, true, 9 / 10⟩, ⟨"a.png", true, true, true, 1 / 10⟩] =
      some (["a.png"], ["a.png"]) := by
  have ha : (3 : ℚ) / 10 < 9 / 10 := by norm_num
  have hb : ¬ ((3 : ℚ) / 10 < 10⁻¹) := by norm_num
  simp [dashboard_2_json, dashboard_2_post, delete_items, delete_items_go, runUploads,
    processUpload, saveFile, ha, hb]

/-- C3 amended: every successfully classified upload contributes its
filename to exactly one bucket, once per occurrence; when the upload
filenames are pairwise distinct, each filename appears in exactly one of the
two returned lists and appears in it only once. -/
theorem bucket_exclusivity (dir0 : List String) (us : List Upload)
    (hnd : dir0.Nodup) (hok : ∀ u ∈ us, uploadOk u = true)
    (hfn : (us.map Upload.filename).Nodup) :
    ∃ c0 c1, dashboard_2_json dir0 us = some (c0, c1) ∧
      c0.Nodup ∧ c1.Nodup ∧
      (∀ u ∈ us, u.filename ∈ c0 ∨ u.filename ∈ c1) ∧
      ∀ f, ¬ (f ∈ c0 ∧ f ∈ c1) := by
  refine ⟨(us.filter fun u => u.score > 3 / 10).map Upload.filename,
    (us.filter fun u => ¬ u.score > 3 / 10).map Upload.filename,
    dashboard_2_json_filters dir0 us hnd hok, ?_, ?_, ?_, ?_⟩
  · exact hfn.sublist ((List.filter_sublist us).map Upload.filename)
  · exact hfn.sublist ((List.filter_sublist us).map Upload.filename)
  · intro u hu
    by_cases hsc : u.score > 3 / 10
    · exact Or.inl (List.mem_map_of_mem Upload.filename
        (List.mem_filter.mpr ⟨hu, by simpa using hsc⟩))
    · exact Or.inr (List.mem_map_of_mem Upload.filename
        (List.mem_filter.mpr ⟨hu, by simpa using hsc⟩))
  · rintro f ⟨hf0, hf1⟩
    obtain ⟨u, hu, hufn⟩ := List.mem_map.mp hf0
    obtain ⟨v, hv, hvfn⟩ := List.mem_map.mp hf1
    obtain ⟨hu1, hu2⟩ := List.mem_filter.mp hu
    obtain ⟨hv1, hv2⟩ := List.mem_filter.mp hv
    have huv : u = v :=
      List.inj_on_of_nodup_map hfn hu1 hv1 (hufn.trans hvfn.symm)
    rw [huv] at hu2
    simp at hu2 hv2
    exact absurd hu2 (by simpa using hv2)

/-- C3 amended witness: two distinct filenames on either side of the
threshold land in separate, duplicate-free buckets. -/
theorem bucket_exclusivity_witness :
    ∃ c0 c1, dashboard_2_json []
        [⟨"a.png", true, true, true, 9 / 10⟩, ⟨"b.png", true, true, true, 1 / 10⟩] =
        some (c0, c1) ∧
      c0.Nodup ∧ c1.Nodup ∧
      (∀ u ∈ [(⟨"a.png", true, true, true, 9 / 10⟩ : Upload),
              ⟨"b.png", true, true, true, 1 / 10⟩], u.filename ∈ c0 ∨ u.filename ∈ c1) ∧
      ∀ f, ¬ (f ∈ c0 ∧ f ∈ c1) :=
  bucket_exclusivity []
    [⟨"a.png", true, true, true, 9 / 10⟩, ⟨"b.png", true, true, true, 1 / 10⟩]
    List.nodup_nil (by decide) (by decide)

/-- C9: the batch handler is not atomic on per-image failure: when decoding
or prediction raises for one upload, no JSON result is produced for the
batch, yet that upload and every earlier one remain saved in the working
directory. -/
theorem batch_not_atomic (dir0 : List String) (pre post : List Upload) (bad : Upload)
    (hnd : dir0.Nodup) (hpre : ∀ u ∈ pre, uploadOk u = true)
    (hsave : bad.saveOk = true)
    (hfail : bad.decodeOk = false ∨ bad.predictOk = false) :
    dashboard_2_json dir0 (pre ++ bad :: post) = none ∧
    ∃ st e, dashboard_2_post dir0 (pre ++ bad :: post) = .ok (st, some e) ∧
      bad.filename ∈ st.dir ∧ ∀ u ∈ pre, u.filename ∈ st.dir := by
  have hbad : uploadOk bad = false := by
    rcases hfail with hf | hf <;> simp [uploadOk, hf]
  obtain ⟨st2, e, hpu, -, -, hdir⟩ :=
    processUpload_fail (pre.foldl stepState ⟨[], [], [], 0, 0⟩) bad hbad
  rw [hsave, if_pos rfl] at hdir
  have hpost : dashboard_2_post dir0 (pre ++ bad :: post) = .ok (st2, some e) := by
    rw [dashboard_2_post_nodup _ _ hnd, runUploads_append_ok pre (bad :: post) _ hpre,
      runUploads, hpu]
  refine ⟨dashboard_2_json_of_err hpost, st2, e, hpost, ?_, ?_⟩
  · rw [hdir]
    exact mem_saveFile.mpr (Or.inr rfl)
  · intro u hu
    rw [hdir]
    exact mem_saveFile.mpr (Or.inl (foldl_stepState_dir_mem pre _ u hu))

/-- C9 witness: the failing second upload and the first upload both remain
in the working directory while no JSON is produced. -/
theorem batch_not_atomic_witness :
    dashboard_2_json []
      [⟨"a.png", true, true, true, 9 / 10⟩, ⟨"b.png", true, false, true, 1 / 2⟩] = none ∧
    ∃ st e, dashboard_2_post []
        [⟨"a.png", true, true, true, 9 / 10⟩, ⟨"b.png", true, false, true, 1 / 2⟩] =
        .ok (st, some e) ∧
      "b.png" ∈ st.dir ∧
      ∀ u ∈ [(⟨"a.png", true, true, true, 9 / 10⟩ : Upload)], u.filename ∈ st.dir := by
  have h := batch_not_atomic [] [⟨"a.png", true, true, true, 9 / 10⟩] []
    ⟨"b.png", true, false, true, 1 / 2⟩ List.nodup_nil (by decide) rfl (Or.inl rfl)
  obtain ⟨hjson, st, e, hpost, hbmem, hpre⟩ := h
  simp only [List.cons_append, List.nil_append] at hjson hpost
  exact ⟨hjson, st, e, hpost, hbmem, hpre⟩

end App
